import Mathlib

/-!
TextEditor: the editing core of `TextEditorWindow`.

A shallow embedding of `src/graphics/TextEditorWindow.cpp`: the line buffer
`_lines`, the cursor `(_cursorX, _cursorY)` and the member functions that move
the cursor and edit the text, followed by theorems about them.

Conventions of the embedding.

* A `CharList` is a `List Char`; `_lines` is a `List (List Char)`.  The lines
  are distinct heap objects in the source, so a line is a value here.
* `v[i]` on a line vector is `lineAt v i`; the source only indexes inside the
  bounds when the cursor is valid (`Valid`), and outside them C++ gives no
  meaning to the program.
* `std::vector::insert(begin() + i, c)` is `List.insertIdx i c`,
  `std::vector::erase(begin() + i)` is `List.eraseIdx`, `push_back c` is
  `· ++ [c]`.
* The counters of the source (`unsigned int x`, `oldCY`, `oldSize`) and the
  sizes of the vectors are natural numbers here: the two agree as long as a
  line has fewer than 2^32 characters and the buffer fewer than 2^32 lines.
  `_lines.size() - 1` differs from the subtraction on natural numbers only for
  a buffer without lines, which `init` excludes.
* The loops of `removeChar` and `addLine` are the recursive functions
  `pushBackLoop` and `eraseLoop`; both are total (the termination proofs are
  part of the definitions).
* The drawing surface, the colour scheme and the console output do not
  influence the buffer or the cursor and are left out.
* `onKeyEvent` dispatches on the key symbol; the conversion
  `(char) key.keysym.unicode` keeps the low 8 bits of the 16-bit code, read as
  a signed 8-bit number (with an unsigned `char` the range test
  `kName < 0x80 && kName > 0` accepts the same codes).
-/

set_option autoImplicit false

/-- Modelled from the spec: the class declaration (`graphics/TextEditorWindow.hpp`)
is not among the sources, so the field types come from the data model of the
specification: a buffer is an ordered sequence of lines of character codes with
no inherent length limit, and the cursor is a pair of 0-based indices
(`_cursorX` is the column, `_cursorY` the row).  Indices are natural numbers. -/
structure TextEditorWindow where
  _lines : List (List Char)
  _cursorX : Nat
  _cursorY : Nat
  _tabLen : Nat
  _capslock : Bool
deriving DecidableEq, Repr

/-- The line `*v[y]` of a vector of lines. -/
def lineAt (v : List (List Char)) (y : Nat) : List Char :=
  v.getD y []

/-- The loop `for (x = x0; x < src.size(); ++x) dst.push_back(src[x]);` used by
`removeChar` (with `x0 = 0`) and by `addLine` (with `x0 = _cursorX`); `src`
and `dst` are different lines. -/
def pushBackLoop (src : List Char) (x : Nat) (dst : List Char) : List Char :=
  if h : x < src.length then pushBackLoop src (x + 1) (dst ++ [src[x]]) else dst
termination_by src.length - x

/-- The loop `for (x = x0; x < line.size(); ++x) line.erase(line.begin() + x);`
of `addLine`: the bound `line.size()` is read again on every iteration. -/
def eraseLoop (line : List Char) (x : Nat) : List Char :=
  if h : x < line.length then eraseLoop (line.eraseIdx x) (x + 1) else line
termination_by line.length - x
decreasing_by
  simp only [List.length_eraseIdx, h, if_true]
  omega

namespace TextEditorWindow

/-- Modelled from the spec: the constructor is declared in the missing header;
the window starts without lines and with the cursor at (0,0). -/
def new : TextEditorWindow :=
  { _lines := [], _cursorX := 0, _cursorY := 0, _tabLen := 0, _capslock := false }

/-- `TextEditorWindow::init`: pushes one empty line and sets the tab length. -/
def init (self : TextEditorWindow) : TextEditorWindow :=
  { self with _lines := self._lines ++ [[]], _tabLen := 4 }

/-- `TextEditorWindow::moveCursorDown`. -/
def moveCursorDown (self : TextEditorWindow) : TextEditorWindow :=
  if self._cursorY < self._lines.length - 1 then
    let s1 := { self with _cursorY := self._cursorY + 1 }
    if s1._cursorX ≥ (lineAt s1._lines s1._cursorY).length then
      { s1 with _cursorX := (lineAt s1._lines s1._cursorY).length }
    else s1
  else self

/-- `TextEditorWindow::moveCursorUp`. -/
def moveCursorUp (self : TextEditorWindow) : TextEditorWindow :=
  if self._cursorY > 0 then
    let s1 := { self with _cursorY := self._cursorY - 1 }
    if s1._cursorX ≥ (lineAt s1._lines s1._cursorY).length then
      { s1 with _cursorX := (lineAt s1._lines s1._cursorY).length }
    else s1
  else self

/-- `TextEditorWindow::moveCursorRight`. -/
def moveCursorRight (self : TextEditorWindow) : TextEditorWindow :=
  if self._cursorX < (lineAt self._lines self._cursorY).length then
    { self with _cursorX := self._cursorX + 1 }
  else
    self.moveCursorDown

/-- `TextEditorWindow::moveCursorLeft`. -/
def moveCursorLeft (self : TextEditorWindow) : TextEditorWindow :=
  if self._cursorX > 0 then
    { self with _cursorX := self._cursorX - 1 }
  else
    let oldCY := self._cursorY
    let s1 := self.moveCursorUp
    if s1._cursorY ≠ oldCY then
      { s1 with _cursorX := (lineAt s1._lines s1._cursorY).length }
    else s1

/-- `TextEditorWindow::addChar`. -/
def addChar (self : TextEditorWindow) (c : Char) : TextEditorWindow :=
  let s1 := { self with
    _lines := self._lines.set self._cursorY
      ((lineAt self._lines self._cursorY).insertIdx self._cursorX c) }
  s1.moveCursorRight

/-- `TextEditorWindow::removeChar`. -/
def removeChar (self : TextEditorWindow) : TextEditorWindow :=
  if self._cursorX > 0 then
    let s1 := { self with
      _lines := self._lines.set self._cursorY
        ((lineAt self._lines self._cursorY).eraseIdx (self._cursorX - 1)) }
    s1.moveCursorLeft
  else
    if self._cursorY > 0 then
      let oldSize := (lineAt self._lines (self._cursorY - 1)).length
      let s1 := { self with
        _lines := self._lines.set (self._cursorY - 1)
          (pushBackLoop (lineAt self._lines self._cursorY) 0
            (lineAt self._lines (self._cursorY - 1))) }
      let s2 := { s1 with _lines := s1._lines.eraseIdx s1._cursorY }
      let s3 := s2.moveCursorUp
      { s3 with _cursorX := oldSize }
    else self

/-- `TextEditorWindow::addLine`. -/
def addLine (self : TextEditorWindow) : TextEditorWindow :=
  let s1 := { self with _lines := self._lines.insertIdx (self._cursorY + 1) [] }
  let s2 := { s1 with _cursorX := s1._cursorX + 1 }
  let s3 := { s2 with
    _lines := s2._lines.set (s2._cursorY + 1)
      (pushBackLoop (lineAt s2._lines s2._cursorY) s2._cursorX
        (lineAt s2._lines (s2._cursorY + 1))) }
  let s4 := { s3 with
    _lines := s3._lines.set s3._cursorY
      (eraseLoop (lineAt s3._lines s3._cursorY) s3._cursorX) }
  let s5 := s4.moveCursorDown
  if s5._cursorX ≥ (lineAt s5._lines s5._cursorY).length then
    { s5 with _cursorX := (lineAt s5._lines s5._cursorY).length }
  else s5

/-- The state after `init`: one empty line, cursor (0,0), tab length 4. -/
def initial : TextEditorWindow := init new

/-- The cursor invariant of the data model: the buffer has a line, the row
indexes a line and the column is at most the length of that line. -/
def Valid (s : TextEditorWindow) : Prop :=
  1 ≤ s._lines.length ∧ s._cursorY < s._lines.length ∧
    s._cursorX ≤ (lineAt s._lines s._cursorY).length

instance (s : TextEditorWindow) : Decidable (Valid s) := by
  unfold Valid; infer_instance

/-- Number of characters in the whole buffer. -/
def totalChars (s : TextEditorWindow) : Nat :=
  (s._lines.map List.length).sum

end TextEditorWindow

/-- The editing commands that act on the buffer and the cursor. -/
inductive Op where
  | moveCursorUp
  | moveCursorDown
  | moveCursorLeft
  | moveCursorRight
  | addChar (c : Char)
  | removeChar
  | addLine
deriving DecidableEq, Repr

/-- One command applied to a state. -/
def Op.apply (s : TextEditorWindow) : Op → TextEditorWindow
  | .moveCursorUp => s.moveCursorUp
  | .moveCursorDown => s.moveCursorDown
  | .moveCursorLeft => s.moveCursorLeft
  | .moveCursorRight => s.moveCursorRight
  | .addChar c => s.addChar c
  | .removeChar => s.removeChar
  | .addLine => s.addLine

/-- A finite sequence of commands applied from left to right. -/
def runOps (s : TextEditorWindow) (ops : List Op) : TextEditorWindow :=
  ops.foldl Op.apply s

/-- The key symbols `key.keysym.sym` is compared with in `onKeyEvent`; they are
constants of the SDL library, and every other key is `SDLK_other`. -/
inductive SDLKey where
  | SDLK_DOWN
  | SDLK_LEFT
  | SDLK_RIGHT
  | SDLK_UP
  | SDLK_BACKSPACE
  | SDLK_RETURN
  | SDLK_TAB
  | SDLK_CAPSLOCK
  | SDLK_other
deriving DecidableEq, Repr

/-- The part of `SDL_keysym` that `onKeyEvent` reads: the key symbol and the
translated character `unicode`, a `Uint16` (a natural number below 2^16). -/
structure SDL_keysym where
  sym : SDLKey
  unicode : Nat
deriving DecidableEq, Repr

/-- The part of `SDL_KeyboardEvent` that `onKeyEvent` reads. -/
structure SDL_KeyboardEvent where
  keysym : SDL_keysym
deriving DecidableEq, Repr

/-- The conversion `(char) key.keysym.unicode`: the low 8 bits of the 16-bit
value, read as a signed 8-bit number (-128..127). -/
def charOfUnicode (u : Nat) : Int :=
  if u % 2 ^ 16 % 2 ^ 8 < 2 ^ 7 then ((u % 2 ^ 16 % 2 ^ 8 : Nat) : Int)
  else ((u % 2 ^ 16 % 2 ^ 8 : Nat) : Int) - 2 ^ 8

/-- The characters at the odd offsets 1, 3, 5, ... of a list: the ones that
`eraseLoop` leaves of the tail it runs over. -/
def oddOffsets : List Char → List Char
  | [] => []
  | [_] => []
  | _ :: b :: t => b :: oddOffsets t

namespace TextEditorWindow

/-- The loop `for (i = i0; i < _tabLen; ++i) addChar(' ');` of the `SDLK_TAB`
branch of `onKeyEvent`; `_tabLen` is read again on every iteration. -/
def tabLoop (self : TextEditorWindow) (i : Nat) : TextEditorWindow :=
  if i < self._tabLen then tabLoop (self.addChar ' ') (i + 1) else self
termination_by self._tabLen - i
decreasing_by
  have keep : (self.addChar ' ')._tabLen = self._tabLen := by
    unfold addChar moveCursorRight moveCursorDown
    dsimp only
    split_ifs <;> rfl
  omega

/-- Modelled from the spec: `TextEditorWindow::onKeyEvent`, where the block that
prints the current line calls `applySyntaxHighlighting`, `getEditorCharVector`
and `printEditorChars`, which are not among the sources; by the specification
they are pure functions of the line text, the keywords and the colour scheme,
so the block leaves the buffer and the cursor as they are and is left out. -/
def onKeyEvent (self : TextEditorWindow) (key : SDL_KeyboardEvent) (dir : Bool) :
    TextEditorWindow :=
  if key.keysym.sym = SDLKey.SDLK_CAPSLOCK then
    { self with _capslock := !self._capslock }
  else
    let kName := charOfUnicode key.keysym.unicode
    if dir then
      if key.keysym.sym = SDLKey.SDLK_DOWN then self.moveCursorDown
      else if key.keysym.sym = SDLKey.SDLK_LEFT then self.moveCursorLeft
      else if key.keysym.sym = SDLKey.SDLK_RIGHT then self.moveCursorRight
      else if key.keysym.sym = SDLKey.SDLK_UP then self.moveCursorUp
      else if key.keysym.sym = SDLKey.SDLK_BACKSPACE then self.removeChar
      else if key.keysym.sym = SDLKey.SDLK_RETURN then self.addLine
      else if key.keysym.sym = SDLKey.SDLK_TAB then self.tabLoop 0
      else if kName < 0x80 ∧ kName > 0 then self.addChar (Char.ofNat kName.toNat)
      else self
    else self

end TextEditorWindow

open TextEditorWindow

/-! ## Vector and loop lemmas -/

theorem lineAt_of_lt (v : List (List Char)) (y : Nat) (h : y < v.length) :
    lineAt v y = v[y] := by
  simp [lineAt, List.getD, List.getElem?_eq_getElem h]

theorem lineAt_set_self (v : List (List Char)) (y : Nat) (l : List Char)
    (h : y < v.length) : lineAt (v.set y l) y = l := by
  simp [lineAt, List.getD, h]

theorem lineAt_set_ne (v : List (List Char)) (y z : Nat) (l : List Char)
    (h : y ≠ z) : lineAt (v.set y l) z = lineAt v z := by
  simp [lineAt, List.getD, List.getElem?_set_ne h]

theorem insertIdx_eq_take_drop {α : Type} (a : α) :
    ∀ (n : Nat) (l : List α), n ≤ l.length →
      l.insertIdx n a = l.take n ++ a :: l.drop n
  | 0, l, _ => by simp
  | n + 1, [], h => by simp at h
  | n + 1, b :: l, h => by
    have h1 : n ≤ l.length := by simpa using h
    simp [List.insertIdx_succ_cons, insertIdx_eq_take_drop a n l h1]

theorem eraseIdx_eq_take_drop {α : Type} (l : List α) (n : Nat) :
    l.eraseIdx n = l.take n ++ l.drop (n + 1) :=
  List.eraseIdx_eq_take_drop_succ l n

theorem pushBackLoop_eq (src : List Char) :
    ∀ (k x : Nat) (dst : List Char), src.length - x = k →
      pushBackLoop src x dst = dst ++ src.drop x := by
  intro k
  induction k with
  | zero =>
    intro x dst hk
    have hx : src.length ≤ x := by omega
    rw [pushBackLoop]
    simp [Nat.not_lt.mpr hx, List.drop_of_length_le hx]
  | succ k ih =>
    intro x dst hk
    have hx : x < src.length := by omega
    rw [pushBackLoop]
    simp only [hx, dite_true]
    rw [ih (x + 1) _ (by omega), List.append_assoc]
    congr 1
    rw [List.drop_eq_getElem_cons hx]; rfl

theorem pushBackLoop_drop (src : List Char) (x : Nat) (dst : List Char) :
    pushBackLoop src x dst = dst ++ src.drop x :=
  pushBackLoop_eq src _ x dst rfl

theorem eraseLoop_of_le (line : List Char) (x : Nat) (h : line.length ≤ x) :
    eraseLoop line x = line := by
  rw [eraseLoop]
  simp [Nat.not_lt.mpr h]

theorem lineAt_insertIdx_lt (v : List (List Char)) (n z : Nat) (l : List Char)
    (hn : n ≤ v.length) (hz : z < n) : lineAt (v.insertIdx n l) z = lineAt v z := by
  rw [insertIdx_eq_take_drop l n v hn]
  have h1 : z < (v.take n).length := by simp; omega
  simp [lineAt, List.getD, List.getElem?_append_left h1, List.getElem?_take, hz]

theorem lineAt_insertIdx_self (v : List (List Char)) (n : Nat) (l : List Char)
    (hn : n ≤ v.length) : lineAt (v.insertIdx n l) n = l := by
  rw [insertIdx_eq_take_drop l n v hn]
  have h1 : (v.take n).length = n := by simp; omega
  have h2 : (v.take n).length ≤ n := by omega
  simp [lineAt, List.getD, List.getElem?_append_right h2, h1]

theorem lineAt_eraseIdx_lt (v : List (List Char)) (n z : Nat) (hz : z < n) :
    lineAt (v.eraseIdx n) z = lineAt v z := by
  simp [lineAt, List.getD, List.getElem?_eraseIdx_of_lt v n z hz]

theorem length_insertIdx_of_le (v : List (List Char)) (n : Nat) (l : List Char)
    (hn : n ≤ v.length) : (v.insertIdx n l).length = v.length + 1 :=
  List.length_insertIdx n v hn

/-! ## What each command does on a valid state -/

namespace TextEditorWindow

theorem moveCursorDown_eq (s : TextEditorWindow) :
    s.moveCursorDown =
      if s._cursorY < s._lines.length - 1 then
        { s with _cursorY := s._cursorY + 1,
                 _cursorX := min s._cursorX (lineAt s._lines (s._cursorY + 1)).length }
      else s := by
  unfold moveCursorDown
  dsimp only
  split_ifs with c1 c2
  · rw [Nat.min_eq_right c2]
  · rw [Nat.min_eq_left (by omega)]
  · rfl

theorem moveCursorUp_eq (s : TextEditorWindow) :
    s.moveCursorUp =
      if s._cursorY > 0 then
        { s with _cursorY := s._cursorY - 1,
                 _cursorX := min s._cursorX (lineAt s._lines (s._cursorY - 1)).length }
      else s := by
  unfold moveCursorUp
  dsimp only
  split_ifs with c1 c2
  · rw [Nat.min_eq_right c2]
  · rw [Nat.min_eq_left (by omega)]
  · rfl

theorem moveCursorLeft_eq (s : TextEditorWindow) :
    s.moveCursorLeft =
      if s._cursorX > 0 then { s with _cursorX := s._cursorX - 1 }
      else if s._cursorY > 0 then
        { s with _cursorY := s._cursorY - 1,
                 _cursorX := (lineAt s._lines (s._cursorY - 1)).length }
      else s := by
  unfold moveCursorLeft
  rw [moveCursorUp_eq]
  dsimp only
  split_ifs with c1 c2 c3 c4
  · rfl
  · rfl
  · exact absurd c3 (by simp; omega)
  · exact absurd c4 (by simp)
  · rfl

theorem moveCursorDown_lines (s : TextEditorWindow) :
    s.moveCursorDown._lines = s._lines ∧ s.moveCursorDown._tabLen = s._tabLen ∧
      s.moveCursorDown._capslock = s._capslock := by
  rw [moveCursorDown_eq]
  split_ifs <;> simp

theorem moveCursorUp_lines (s : TextEditorWindow) :
    s.moveCursorUp._lines = s._lines ∧ s.moveCursorUp._tabLen = s._tabLen ∧
      s.moveCursorUp._capslock = s._capslock := by
  rw [moveCursorUp_eq]
  split_ifs <;> simp

theorem valid_moveCursorDown (s : TextEditorWindow) (h : Valid s) :
    Valid s.moveCursorDown := by
  obtain ⟨h1, h2, h3⟩ := h
  rw [moveCursorDown_eq]
  split_ifs with c1
  · refine ⟨h1, ?_, Nat.min_le_right _ _⟩
    show s._cursorY + 1 < s._lines.length
    omega
  · exact ⟨h1, h2, h3⟩

theorem valid_moveCursorUp (s : TextEditorWindow) (h : Valid s) :
    Valid s.moveCursorUp := by
  obtain ⟨h1, h2, h3⟩ := h
  rw [moveCursorUp_eq]
  split_ifs with c1
  · refine ⟨h1, ?_, Nat.min_le_right _ _⟩
    show s._cursorY - 1 < s._lines.length
    omega
  · exact ⟨h1, h2, h3⟩

theorem valid_moveCursorRight (s : TextEditorWindow) (h : Valid s) :
    Valid s.moveCursorRight := by
  unfold moveCursorRight
  split_ifs with c1
  · obtain ⟨h1, h2, _⟩ := h
    exact ⟨h1, h2, c1⟩
  · exact valid_moveCursorDown s h

theorem valid_moveCursorLeft (s : TextEditorWindow) (h : Valid s) :
    Valid s.moveCursorLeft := by
  obtain ⟨h1, h2, h3⟩ := h
  rw [moveCursorLeft_eq]
  split_ifs with c1 c2
  · refine ⟨h1, h2, ?_⟩
    show s._cursorX - 1 ≤ (lineAt s._lines s._cursorY).length
    omega
  · refine ⟨h1, ?_, Nat.le_refl _⟩
    show s._cursorY - 1 < s._lines.length
    omega
  · exact ⟨h1, h2, h3⟩

theorem addChar_eq (s : TextEditorWindow) (c : Char) (h : Valid s) :
    s.addChar c =
      { s with
        _lines := s._lines.set s._cursorY
          ((lineAt s._lines s._cursorY).take s._cursorX ++
            c :: (lineAt s._lines s._cursorY).drop s._cursorX),
        _cursorX := s._cursorX + 1 } := by
  obtain ⟨_, h2, h3⟩ := h
  unfold addChar moveCursorRight
  dsimp only
  rw [lineAt_set_self _ _ _ h2, insertIdx_eq_take_drop c _ _ h3]
  have hlen : s._cursorX <
      (List.take s._cursorX (lineAt s._lines s._cursorY) ++
        c :: List.drop s._cursorX (lineAt s._lines s._cursorY)).length := by
    simp only [List.length_append, List.length_take, List.length_cons, List.length_drop]
    omega
  rw [if_pos hlen]

theorem removeChar_eq_of_pos (s : TextEditorWindow) (hx : 0 < s._cursorX) :
    s.removeChar =
      { s with
        _lines := s._lines.set s._cursorY
          ((lineAt s._lines s._cursorY).take (s._cursorX - 1) ++
            (lineAt s._lines s._cursorY).drop s._cursorX),
        _cursorX := s._cursorX - 1 } := by
  unfold removeChar
  rw [if_pos hx, moveCursorLeft_eq]
  dsimp only
  rw [if_pos hx, eraseIdx_eq_take_drop, Nat.sub_add_cancel hx]

theorem removeChar_eq_of_zero (s : TextEditorWindow)
    (hx : s._cursorX = 0) (hy : 0 < s._cursorY) :
    s.removeChar =
      { s with
        _lines := (s._lines.set (s._cursorY - 1)
          (lineAt s._lines (s._cursorY - 1) ++ lineAt s._lines s._cursorY)).eraseIdx
            s._cursorY,
        _cursorX := (lineAt s._lines (s._cursorY - 1)).length,
        _cursorY := s._cursorY - 1 } := by
  unfold removeChar
  rw [if_neg (by omega), if_pos hy]
  dsimp only
  rw [moveCursorUp_eq]
  dsimp only
  rw [if_pos hy, pushBackLoop_drop, List.drop_zero]

theorem removeChar_eq_of_origin (s : TextEditorWindow)
    (hx : s._cursorX = 0) (hy : s._cursorY = 0) : s.removeChar = s := by
  unfold removeChar
  rw [if_neg (by omega), if_neg (by omega)]

theorem addLine_eq (s : TextEditorWindow) (h : Valid s) :
    s.addLine =
      { s with
        _lines := ((s._lines.insertIdx (s._cursorY + 1) []).set (s._cursorY + 1)
            ((lineAt s._lines s._cursorY).drop (s._cursorX + 1))).set s._cursorY
              (eraseLoop (lineAt s._lines s._cursorY) (s._cursorX + 1)),
        _cursorX := min (s._cursorX + 1)
          ((lineAt s._lines s._cursorY).length - (s._cursorX + 1)),
        _cursorY := s._cursorY + 1 } := by
  obtain ⟨_, h2, _⟩ := h
  have hle : s._cursorY + 1 ≤ s._lines.length := h2
  have hlen := length_insertIdx_of_le s._lines (s._cursorY + 1) [] hle
  unfold addLine
  dsimp only
  rw [moveCursorDown_eq]
  dsimp only
  rw [lineAt_insertIdx_lt _ _ _ _ hle (Nat.lt_succ_self _),
    lineAt_insertIdx_self _ _ _ hle, pushBackLoop_drop, List.nil_append,
    lineAt_set_ne _ _ _ _ (Nat.succ_ne_self _),
    lineAt_insertIdx_lt _ _ _ _ hle (Nat.lt_succ_self _)]
  have hlt : s._cursorY <
      ((((s._lines.insertIdx (s._cursorY + 1) []).set (s._cursorY + 1)
        ((lineAt s._lines s._cursorY).drop (s._cursorX + 1))).set s._cursorY
          (eraseLoop (lineAt s._lines s._cursorY) (s._cursorX + 1))).length - 1) := by
    simp only [List.length_set, hlen]
    omega
  rw [if_pos hlt]
  dsimp only
  have hrow : lineAt
      (((s._lines.insertIdx (s._cursorY + 1) []).set (s._cursorY + 1)
        ((lineAt s._lines s._cursorY).drop (s._cursorX + 1))).set s._cursorY
          (eraseLoop (lineAt s._lines s._cursorY) (s._cursorX + 1))) (s._cursorY + 1) =
      (lineAt s._lines s._cursorY).drop (s._cursorX + 1) := by
    rw [lineAt_set_ne _ _ _ _ (Nat.ne_of_lt (Nat.lt_succ_self _)),
      lineAt_set_self _ _ _ (by rw [hlen]; omega)]
  rw [hrow, List.length_drop]
  split_ifs with c1
  · congr 1
    omega
  · rfl

theorem valid_addChar (s : TextEditorWindow) (c : Char) (h : Valid s) :
    Valid (s.addChar c) := by
  rw [addChar_eq s c h]
  obtain ⟨h1, h2, h3⟩ := h
  refine ⟨?_, ?_, ?_⟩
  · show 1 ≤ (s._lines.set _ _).length
    rw [List.length_set]; exact h1
  · show s._cursorY < (s._lines.set _ _).length
    rw [List.length_set]; exact h2
  · show s._cursorX + 1 ≤ (lineAt (s._lines.set s._cursorY _) s._cursorY).length
    rw [lineAt_set_self _ _ _ h2]
    simp only [List.length_append, List.length_take, List.length_cons, List.length_drop]
    omega

theorem valid_removeChar (s : TextEditorWindow) (h : Valid s) :
    Valid s.removeChar := by
  obtain ⟨h1, h2, h3⟩ := h
  by_cases hx : 0 < s._cursorX
  · rw [removeChar_eq_of_pos s hx]
    refine ⟨?_, ?_, ?_⟩
    · show 1 ≤ (s._lines.set _ _).length
      rw [List.length_set]; exact h1
    · show s._cursorY < (s._lines.set _ _).length
      rw [List.length_set]; exact h2
    · show s._cursorX - 1 ≤ (lineAt (s._lines.set s._cursorY _) s._cursorY).length
      rw [lineAt_set_self _ _ _ h2]
      simp only [List.length_append, List.length_take, List.length_drop]
      omega
  · have hx0 : s._cursorX = 0 := by omega
    by_cases hy : 0 < s._cursorY
    · rw [removeChar_eq_of_zero s hx0 hy]
      have hlen : ((s._lines.set (s._cursorY - 1)
          (lineAt s._lines (s._cursorY - 1) ++ lineAt s._lines s._cursorY)).eraseIdx
            s._cursorY).length = s._lines.length - 1 := by
        rw [List.length_eraseIdx, List.length_set, if_pos h2]
      refine ⟨?_, ?_, ?_⟩
      · show 1 ≤ (List.eraseIdx _ _).length
        rw [hlen]; omega
      · show s._cursorY - 1 < (List.eraseIdx _ _).length
        rw [hlen]; omega
      · show (lineAt s._lines (s._cursorY - 1)).length ≤
          (lineAt (List.eraseIdx _ s._cursorY) (s._cursorY - 1)).length
        rw [lineAt_eraseIdx_lt _ _ _ (by omega), lineAt_set_self _ _ _ (by omega),
          List.length_append]
        omega
    · rw [removeChar_eq_of_origin s hx0 (by omega)]
      exact ⟨h1, h2, h3⟩

theorem valid_addLine (s : TextEditorWindow) (h : Valid s) : Valid s.addLine := by
  rw [addLine_eq s h]
  obtain ⟨h1, h2, h3⟩ := h
  have hle : s._cursorY + 1 ≤ s._lines.length := h2
  have hlen : (((s._lines.insertIdx (s._cursorY + 1) []).set (s._cursorY + 1)
      ((lineAt s._lines s._cursorY).drop (s._cursorX + 1))).set s._cursorY
        (eraseLoop (lineAt s._lines s._cursorY) (s._cursorX + 1))).length =
      s._lines.length + 1 := by
    rw [List.length_set, List.length_set, length_insertIdx_of_le _ _ _ hle]
  refine ⟨?_, ?_, ?_⟩
  · show 1 ≤ (List.set _ _ _).length
    rw [hlen]; omega
  · show s._cursorY + 1 < (List.set _ _ _).length
    rw [hlen]; omega
  · show min (s._cursorX + 1) ((lineAt s._lines s._cursorY).length - (s._cursorX + 1)) ≤
      (lineAt (List.set _ s._cursorY _) (s._cursorY + 1)).length
    rw [lineAt_set_ne _ _ _ _ (Nat.ne_of_lt (Nat.lt_succ_self _)),
      lineAt_set_self _ _ _ (by rw [length_insertIdx_of_le _ _ _ hle]; omega),
      List.length_drop]
    exact Nat.min_le_right _ _

theorem valid_initial : Valid initial := by decide

end TextEditorWindow

theorem valid_apply (s : TextEditorWindow) (op : Op) (h : s.Valid) :
    (op.apply s).Valid := by
  cases op with
  | moveCursorUp => exact valid_moveCursorUp s h
  | moveCursorDown => exact valid_moveCursorDown s h
  | moveCursorLeft => exact valid_moveCursorLeft s h
  | moveCursorRight => exact valid_moveCursorRight s h
  | addChar c => exact valid_addChar s c h
  | removeChar => exact valid_removeChar s h
  | addLine => exact valid_addLine s h

theorem valid_runOps (ops : List Op) :
    ∀ s : TextEditorWindow, s.Valid → (runOps s ops).Valid := by
  induction ops with
  | nil => intro s h; exact h
  | cons op ops ih => intro s h; exact ih _ (valid_apply s op h)

theorem iterate_removeChar_origin (s : TextEditorWindow)
    (hx : s._cursorX = 0) (hy : s._cursorY = 0) (n : Nat) :
    TextEditorWindow.removeChar^[n] s = s := by
  induction n with
  | zero => rfl
  | succ n ih => rw [Function.iterate_succ_apply, removeChar_eq_of_origin s hx hy, ih]

theorem take_drop_insert {α : Type} (l : List α) (a : α) (n : Nat) (h : n ≤ l.length) :
    (l.take n ++ a :: l.drop n).take n ++ (l.take n ++ a :: l.drop n).drop (n + 1) = l := by
  rw [← insertIdx_eq_take_drop a n l h, ← eraseIdx_eq_take_drop, List.eraseIdx_insertIdx]

theorem set_lineAt_self : ∀ (v : List (List Char)) (y : Nat), y < v.length →
    v.set y (lineAt v y) = v
  | [], _, h => by simp at h
  | l :: v, 0, _ => by simp [lineAt]
  | l :: v, y + 1, h => by
    have h1 : y < v.length := by simpa using h
    have ih := set_lineAt_self v y h1
    simp only [lineAt, List.getD_cons_succ, List.set_cons_succ] at ih ⊢
    rw [ih]

/-- When a character lies after column `c` of the single line, addLine followed
by removeChar leaves two lines: the split is not undone. -/
theorem addLine_removeChar_two_lines (L : List Char) (c t : Nat) (cl : Bool)
    (h : c + 1 < L.length) :
    (⟨[L], c, 0, t, cl⟩ : TextEditorWindow).addLine.removeChar._lines.length = 2 := by
  have hv : Valid (⟨[L], c, 0, t, cl⟩ : TextEditorWindow) :=
    ⟨Nat.le_refl 1, Nat.zero_lt_one, by show c ≤ L.length; omega⟩
  rw [addLine_eq _ hv]
  rw [removeChar_eq_of_pos _ (by
    show 0 < min (c + 1) ((lineAt [L] 0).length - (c + 1))
    simp only [lineAt, List.getD_cons_zero]
    omega)]
  simp

/-! ## The claims -/

/-- C1: the state after `init` has one empty line and the cursor at (0,0); after
every finite sequence of moveCursorUp/Down/Left/Right, addChar, removeChar and
addLine from it the buffer has at least one line; and removeChar applied any
number of times to a state whose cursor is at row 0, column 0 leaves the lines
as they are, so the last line is never removed. -/
theorem C1_buffer_nonempty :
    (initial._lines = [[]] ∧ initial._cursorX = 0 ∧ initial._cursorY = 0) ∧
    (∀ ops : List Op, 1 ≤ (runOps initial ops)._lines.length) ∧
    (∀ (s : TextEditorWindow) (n : Nat), 1 ≤ s._lines.length →
      s._cursorX = 0 → s._cursorY = 0 →
        (TextEditorWindow.removeChar^[n] s)._lines = s._lines ∧
          1 ≤ (TextEditorWindow.removeChar^[n] s)._lines.length) := by
  refine ⟨⟨rfl, rfl, rfl⟩, ?_, ?_⟩
  · intro ops
    exact (valid_runOps ops initial valid_initial).1
  · intro s n h1 hx hy
    rw [iterate_removeChar_origin s hx hy n]
    exact ⟨rfl, h1⟩

/-- Witness of C1: five backspaces at the origin of the buffer ["ab"]. -/
theorem C1_buffer_nonempty_witness :
    (TextEditorWindow.removeChar^[5] ⟨[['a', 'b']], 0, 0, 4, false⟩)._lines = [['a', 'b']] ∧
      1 ≤ (TextEditorWindow.removeChar^[5] ⟨[['a', 'b']], 0, 0, 4, false⟩)._lines.length :=
  C1_buffer_nonempty.2.2 ⟨[['a', 'b']], 0, 0, 4, false⟩ 5 (by decide) rfl rfl

/-- C2: cursor validity is preserved by every operation: from a state with at
least one line, `row < len(Buffer)` and `col <= len(Buffer[row])`, each of
moveCursorUp, moveCursorDown, moveCursorLeft, moveCursorRight, addChar(c),
removeChar and addLine gives a state with the same three properties, and so
does every finite sequence of them. -/
theorem C2_cursor_valid (s : TextEditorWindow) (h : Valid s) :
    Valid s.moveCursorUp ∧ Valid s.moveCursorDown ∧ Valid s.moveCursorLeft ∧
    Valid s.moveCursorRight ∧ (∀ c : Char, Valid (s.addChar c)) ∧
    Valid s.removeChar ∧ Valid s.addLine ∧
    ∀ ops : List Op, Valid (runOps s ops) :=
  ⟨valid_moveCursorUp s h, valid_moveCursorDown s h, valid_moveCursorLeft s h,
    valid_moveCursorRight s h, fun c => valid_addChar s c h, valid_removeChar s h,
    valid_addLine s h, fun ops => valid_runOps ops s h⟩

/-- Witness of C2: the state after `init`, which is valid. -/
theorem C2_cursor_valid_witness :
    Valid initial ∧
    (Valid initial.moveCursorUp ∧ Valid initial.moveCursorDown ∧
      Valid initial.moveCursorLeft ∧ Valid initial.moveCursorRight ∧
      (∀ c : Char, Valid (initial.addChar c)) ∧
      Valid initial.removeChar ∧ Valid initial.addLine ∧
      ∀ ops : List Op, Valid (runOps initial ops)) :=
  ⟨by decide, C2_cursor_valid initial (by decide)⟩

/-- C3: on a valid state, addChar(c) immediately followed by removeChar gives
back the state it started from: the same buffer and the same cursor. -/
theorem C3_addChar_removeChar (s : TextEditorWindow) (c : Char) (h : Valid s) :
    (s.addChar c).removeChar = s := by
  rw [addChar_eq s c h, removeChar_eq_of_pos _ (Nat.succ_pos _)]
  obtain ⟨_, h2, h3⟩ := h
  dsimp only
  rw [lineAt_set_self _ _ _ h2, Nat.add_sub_cancel, take_drop_insert _ _ _ h3,
    List.set_set, set_lineAt_self _ _ h2]

/-- Witness of C3: inserting 'x' in the middle of the second line and deleting it. -/
theorem C3_addChar_removeChar_witness :
    Valid ⟨[['a'], ['b', 'c']], 1, 1, 4, false⟩ ∧
    ((⟨[['a'], ['b', 'c']], 1, 1, 4, false⟩ : TextEditorWindow).addChar 'x').removeChar =
      ⟨[['a'], ['b', 'c']], 1, 1, 4, false⟩ :=
  ⟨by decide, C3_addChar_removeChar ⟨[['a'], ['b', 'c']], 1, 1, 4, false⟩ 'x' (by decide)⟩

/-- C4, counterexample: on the single-line buffer ["ab"] with the cursor at
column 0, addLine followed by removeChar gives the buffer ["a", ""] with the
cursor at (1, 0), not the buffer ["ab"] with the cursor at (0, 0). -/
theorem C4_counterexample :
    (0 : Nat) ≤ ['a', 'b'].length ∧
    (⟨[['a', 'b']], 0, 0, 4, false⟩ : TextEditorWindow).addLine.removeChar =
      ⟨[['a'], []], 0, 1, 4, false⟩ ∧
    ¬ ((⟨[['a', 'b']], 0, 0, 4, false⟩ : TextEditorWindow).addLine.removeChar._lines =
          [['a', 'b']] ∧
        (⟨[['a', 'b']], 0, 0, 4, false⟩ : TextEditorWindow).addLine.removeChar._cursorY = 0 ∧
        (⟨[['a', 'b']], 0, 0, 4, false⟩ : TextEditorWindow).addLine.removeChar._cursorX = 0) := by
  have e : (⟨[['a', 'b']], 0, 0, 4, false⟩ : TextEditorWindow).addLine.removeChar =
      ⟨[['a'], []], 0, 1, 4, false⟩ := by
    simp [addLine, removeChar, moveCursorDown, moveCursorLeft, lineAt, pushBackLoop,
      eraseLoop]
  rw [e]
  decide

/-- C4, amended: for a single-line buffer [L] and a cursor column c with
`c <= len(L)` and no character after column c (`len(L) <= c + 1`), addLine
followed by removeChar yields the buffer [L] again with the cursor at
(0, len(L)), which is the original cursor (0, c) when `c = len(L)`. -/
theorem C4_addLine_removeChar_amended (L : List Char) (c t : Nat) (cl : Bool)
    (hc : c ≤ L.length) (hend : L.length ≤ c + 1) :
    (⟨[L], c, 0, t, cl⟩ : TextEditorWindow).addLine.removeChar =
      ⟨[L], L.length, 0, t, cl⟩ := by
  have hv : Valid (⟨[L], c, 0, t, cl⟩ : TextEditorWindow) :=
    ⟨Nat.le_refl 1, Nat.zero_lt_one, hc⟩
  rw [addLine_eq _ hv]
  have h0 : L.length - (c + 1) = 0 := by omega
  simp only [lineAt, List.getD_cons_zero, eraseLoop_of_le L (c + 1) hend,
    List.drop_of_length_le hend, h0, Nat.min_zero]
  rw [removeChar_eq_of_zero _ rfl Nat.zero_lt_one]
  simp [lineAt]

/-- Witness of C4 (amended): the buffer ["ab"] with the cursor after the last
character; the state is restored. -/
theorem C4_addLine_removeChar_amended_witness :
    (2 : Nat) ≤ ['a', 'b'].length ∧ ['a', 'b'].length ≤ 2 + 1 ∧
    (⟨[['a', 'b']], 2, 0, 4, false⟩ : TextEditorWindow).addLine.removeChar =
      ⟨[['a', 'b']], ['a', 'b'].length, 0, 4, false⟩ :=
  ⟨by decide, by decide,
    C4_addLine_removeChar_amended ['a', 'b'] 2 4 false (by decide) (by decide)⟩

/-- C5, the code at a failing input: on the valid state with buffer ["abc"] and
cursor (0,0), addLine gives the buffer ["ac", "bc"]; the buffer holds 3
characters before the call and 4 after it. -/
theorem C5_addLine_totalChars_failing :
    Valid ⟨[['a', 'b', 'c']], 0, 0, 4, false⟩ ∧
    (⟨[['a', 'b', 'c']], 0, 0, 4, false⟩ : TextEditorWindow).addLine =
      ⟨[['a', 'c'], ['b', 'c']], 1, 1, 4, false⟩ ∧
    totalChars ⟨[['a', 'b', 'c']], 0, 0, 4, false⟩ = 3 ∧
    totalChars (⟨[['a', 'b', 'c']], 0, 0, 4, false⟩ : TextEditorWindow).addLine = 4 := by
  have e : (⟨[['a', 'b', 'c']], 0, 0, 4, false⟩ : TextEditorWindow).addLine =
      ⟨[['a', 'c'], ['b', 'c']], 1, 1, 4, false⟩ := by
    simp [addLine, moveCursorDown, lineAt, pushBackLoop, eraseLoop]
  rw [e]
  decide

/-- C6, the code at a failing input: on the valid state with buffer
["x", "abcde", "y"] and cursor (1,1), addLine gives
["x", "abd", "cde", "y"]: one more line, the lines around the split in place
and row 2 equal to L[2..) = "cde", but row 1 is "abd", not the prefix
L[0..2) = "ab". -/
theorem C6_addLine_split_failing :
    Valid ⟨[['x'], ['a', 'b', 'c', 'd', 'e'], ['y']], 1, 1, 4, false⟩ ∧
    (⟨[['x'], ['a', 'b', 'c', 'd', 'e'], ['y']], 1, 1, 4, false⟩ :
        TextEditorWindow).addLine._lines =
      [['x'], ['a', 'b', 'd'], ['c', 'd', 'e'], ['y']] ∧
    lineAt (⟨[['x'], ['a', 'b', 'c', 'd', 'e'], ['y']], 1, 1, 4, false⟩ :
        TextEditorWindow).addLine._lines 1 ≠ ['a', 'b', 'c', 'd', 'e'].take (1 + 1) := by
  have e : (⟨[['x'], ['a', 'b', 'c', 'd', 'e'], ['y']], 1, 1, 4, false⟩ :
        TextEditorWindow).addLine._lines =
      [['x'], ['a', 'b', 'd'], ['c', 'd', 'e'], ['y']] := by
    simp [addLine, moveCursorDown, lineAt, pushBackLoop, eraseLoop]
  rw [e]
  decide

/-- C7, counterexample: on the valid state with buffer ["ab"] and cursor (0,0),
addLine gives the buffer ["a", "b"] and leaves the cursor at (1, 1), not at
(1, 0). -/
theorem C7_counterexample :
    Valid ⟨[['a', 'b']], 0, 0, 4, false⟩ ∧
    (⟨[['a', 'b']], 0, 0, 4, false⟩ : TextEditorWindow).addLine =
      ⟨[['a'], ['b']], 1, 1, 4, false⟩ ∧
    ¬ ((⟨[['a', 'b']], 0, 0, 4, false⟩ : TextEditorWindow).addLine._cursorY = 0 + 1 ∧
      (⟨[['a', 'b']], 0, 0, 4, false⟩ : TextEditorWindow).addLine._cursorX = 0) := by
  have e : (⟨[['a', 'b']], 0, 0, 4, false⟩ : TextEditorWindow).addLine =
      ⟨[['a'], ['b']], 1, 1, 4, false⟩ := by
    simp [addLine, moveCursorDown, lineAt, pushBackLoop, eraseLoop]
  rw [e]
  decide

/-- C7, amended: on a valid state with cursor (r, c) and current line L, after
addLine the cursor is on the new line r+1, which holds the carried-over text
L[c+1..), at column `min(c+1, len(L) - (c+1))` (the subtraction stops at 0);
the column is 0 exactly when nothing is carried over, `len(L) <= c + 1`. -/
theorem C7_addLine_cursor_amended (s : TextEditorWindow) (h : Valid s) :
    s.addLine._cursorY = s._cursorY + 1 ∧
    lineAt s.addLine._lines s.addLine._cursorY =
      (lineAt s._lines s._cursorY).drop (s._cursorX + 1) ∧
    s.addLine._cursorX =
      min (s._cursorX + 1) ((lineAt s._lines s._cursorY).length - (s._cursorX + 1)) ∧
    (s.addLine._cursorX = 0 ↔ (lineAt s._lines s._cursorY).length ≤ s._cursorX + 1) := by
  rw [addLine_eq s h]
  obtain ⟨_, h2, _⟩ := h
  have hle : s._cursorY + 1 ≤ s._lines.length := h2
  dsimp only
  refine ⟨rfl, ?_, rfl, ?_⟩
  · rw [lineAt_set_ne _ _ _ _ (Nat.ne_of_lt (Nat.lt_succ_self _)),
      lineAt_set_self _ _ _ (by rw [length_insertIdx_of_le _ _ _ hle]; omega)]
  · omega

/-- Witness of C7 (amended): the buffer ["x", "abcde", "y"] with cursor (1,1);
the cursor ends at (2, 2) on the line "cde". -/
theorem C7_addLine_cursor_amended_witness :
    Valid ⟨[['x'], ['a', 'b', 'c', 'd', 'e'], ['y']], 1, 1, 4, false⟩ ∧
    (⟨[['x'], ['a', 'b', 'c', 'd', 'e'], ['y']], 1, 1, 4, false⟩ :
      TextEditorWindow).addLine._cursorY = 2 ∧
    (⟨[['x'], ['a', 'b', 'c', 'd', 'e'], ['y']], 1, 1, 4, false⟩ :
      TextEditorWindow).addLine._cursorX = 2 :=
  ⟨by decide,
    (C7_addLine_cursor_amended
      ⟨[['x'], ['a', 'b', 'c', 'd', 'e'], ['y']], 1, 1, 4, false⟩ (by decide)).1,
    (C7_addLine_cursor_amended
      ⟨[['x'], ['a', 'b', 'c', 'd', 'e'], ['y']], 1, 1, 4, false⟩ (by decide)).2.2.1⟩

/-- C8: from the state after `init` (one empty line, cursor (0,0)), addChar('a'),
addChar('b'), addLine, addChar('c') in that order give the buffer ["ab", "c"]
with the cursor at row 1, column 1. -/
theorem C8_scenario :
    initial._lines = [[]] ∧ initial._cursorX = 0 ∧ initial._cursorY = 0 ∧
    ((((initial.addChar 'a').addChar 'b').addLine).addChar 'c')._lines =
      [['a', 'b'], ['c']] ∧
    ((((initial.addChar 'a').addChar 'b').addLine).addChar 'c')._cursorY = 1 ∧
    ((((initial.addChar 'a').addChar 'b').addLine).addChar 'c')._cursorX = 1 ∧
    runOps initial [Op.addChar 'a', Op.addChar 'b', Op.addLine, Op.addChar 'c'] =
      ⟨[['a', 'b'], ['c']], 1, 1, 4, false⟩ := by
  have e : ((((initial.addChar 'a').addChar 'b').addLine).addChar 'c') =
      ⟨[['a', 'b'], ['c']], 1, 1, 4, false⟩ := by
    simp [initial, init, new, addChar, addLine, moveCursorRight, moveCursorDown, lineAt,
      pushBackLoop, eraseLoop]
  refine ⟨rfl, rfl, rfl, ?_, ?_, ?_, ?_⟩
  · rw [e]
  · rw [e]
  · rw [e]
  · exact e

/-- C9: on a valid state with current line L at row r and cursor column c,
after addChar(ch) the line at row r is `L[0..c) ++ [ch] ++ L[c..)`, the number
of lines and every other line are unchanged, the cursor is (r, c+1), and the
character just before the new cursor position is ch. -/
theorem C9_addChar_post (s : TextEditorWindow) (ch : Char) (h : Valid s) :
    (s.addChar ch)._lines[s._cursorY]? =
      some ((lineAt s._lines s._cursorY).take s._cursorX ++ [ch] ++
        (lineAt s._lines s._cursorY).drop s._cursorX) ∧
    (s.addChar ch)._lines.length = s._lines.length ∧
    (∀ i : Nat, i ≠ s._cursorY → (s.addChar ch)._lines[i]? = s._lines[i]?) ∧
    (s.addChar ch)._cursorY = s._cursorY ∧
    (s.addChar ch)._cursorX = s._cursorX + 1 ∧
    (lineAt (s.addChar ch)._lines (s.addChar ch)._cursorY)[(s.addChar ch)._cursorX - 1]? =
      some ch := by
  rw [addChar_eq s ch h]
  obtain ⟨_, h2, h3⟩ := h
  dsimp only
  refine ⟨?_, List.length_set _ _ _, ?_, rfl, rfl, ?_⟩
  · rw [List.getElem?_set_self h2, List.append_assoc, List.singleton_append]
  · intro i hi
    exact List.getElem?_set_ne (Ne.symm hi)
  · rw [lineAt_set_self _ _ _ h2, Nat.add_sub_cancel]
    have hlen : (List.take s._cursorX (lineAt s._lines s._cursorY)).length = s._cursorX := by
      rw [List.length_take]; omega
    rw [List.getElem?_append_right (by omega), hlen, Nat.sub_self]
    exact List.getElem?_cons_zero

/-- Witness of C9: inserting 'x' at column 1 of the second line of ["a", "bc"]. -/
theorem C9_addChar_post_witness :
    Valid ⟨[['a'], ['b', 'c']], 1, 1, 4, false⟩ ∧
    ((⟨[['a'], ['b', 'c']], 1, 1, 4, false⟩ : TextEditorWindow).addChar 'x')._lines[1]? =
      some (['b'] ++ ['x'] ++ ['c']) ∧
    ((⟨[['a'], ['b', 'c']], 1, 1, 4, false⟩ : TextEditorWindow).addChar 'x')._lines.length =
      2 :=
  ⟨by decide,
    (C9_addChar_post ⟨[['a'], ['b', 'c']], 1, 1, 4, false⟩ 'x' (by decide)).1,
    (C9_addChar_post ⟨[['a'], ['b', 'c']], 1, 1, 4, false⟩ 'x' (by decide)).2.1⟩

/-- C10: on a valid state with cursor (r, c), `c > 0`, and current line L, after
removeChar the line at row r is `L[0..c-1) ++ L[c..)`, that is L without the
character at index c-1, the number of lines and every other line are
unchanged, and the cursor is (r, c-1). -/
theorem C10_removeChar_inside (s : TextEditorWindow) (h : Valid s)
    (hc : 0 < s._cursorX) :
    s.removeChar._lines[s._cursorY]? =
      some ((lineAt s._lines s._cursorY).take (s._cursorX - 1) ++
        (lineAt s._lines s._cursorY).drop s._cursorX) ∧
    (lineAt s._lines s._cursorY).take (s._cursorX - 1) ++
        (lineAt s._lines s._cursorY).drop s._cursorX =
      (lineAt s._lines s._cursorY).eraseIdx (s._cursorX - 1) ∧
    s.removeChar._lines.length = s._lines.length ∧
    (∀ i : Nat, i ≠ s._cursorY → s.removeChar._lines[i]? = s._lines[i]?) ∧
    s.removeChar._cursorY = s._cursorY ∧
    s.removeChar._cursorX = s._cursorX - 1 := by
  rw [removeChar_eq_of_pos s hc]
  obtain ⟨_, h2, _⟩ := h
  dsimp only
  refine ⟨List.getElem?_set_self h2, ?_, List.length_set _ _ _, ?_, rfl, rfl⟩
  · rw [eraseIdx_eq_take_drop, Nat.sub_add_cancel hc]
  · intro i hi
    exact List.getElem?_set_ne (Ne.symm hi)

/-- Witness of C10: backspace at column 2 of the second line of ["a", "bcd"]
removes 'c'. -/
theorem C10_removeChar_inside_witness :
    Valid ⟨[['a'], ['b', 'c', 'd']], 2, 1, 4, false⟩ ∧ 0 < 2 ∧
    (⟨[['a'], ['b', 'c', 'd']], 2, 1, 4, false⟩ : TextEditorWindow).removeChar._lines[1]? =
      some (['b'] ++ ['d']) ∧
    (⟨[['a'], ['b', 'c', 'd']], 2, 1, 4, false⟩ : TextEditorWindow).removeChar._cursorX =
      1 :=
  ⟨by decide, by decide,
    (C10_removeChar_inside ⟨[['a'], ['b', 'c', 'd']], 2, 1, 4, false⟩ (by decide)
      (by decide)).1,
    (C10_removeChar_inside ⟨[['a'], ['b', 'c', 'd']], 2, 1, 4, false⟩ (by decide)
      (by decide)).2.2.2.2.2⟩


/-! ## Lemmas for joining lines and for navigation -/

theorem sum_length_join : ∀ (v : List (List Char)) (k : Nat), k + 1 < v.length →
    (((v.set k (lineAt v k ++ lineAt v (k + 1))).eraseIdx (k + 1)).map List.length).sum =
      (v.map List.length).sum
  | [], _, h => by simp at h
  | [_], _, h => by simp at h
  | a :: b :: w, 0, _ => by
    simp [lineAt]
    omega
  | a :: b :: w, k + 1, h => by
    have h1 : k + 1 < (b :: w).length := by simpa using h
    have ih := sum_length_join (b :: w) k h1
    simp only [lineAt, List.getD_cons_succ, List.set_cons_succ, List.eraseIdx_cons_succ,
      List.map_cons, List.sum_cons] at ih ⊢
    rw [ih]

namespace TextEditorWindow

theorem moveCursorRight_eq (s : TextEditorWindow) :
    s.moveCursorRight =
      if s._cursorX < (lineAt s._lines s._cursorY).length then
        { s with _cursorX := s._cursorX + 1 }
      else if s._cursorY < s._lines.length - 1 then
        { s with _cursorY := s._cursorY + 1,
                 _cursorX := min s._cursorX (lineAt s._lines (s._cursorY + 1)).length }
      else s := by
  unfold moveCursorRight
  rw [moveCursorDown_eq]

theorem moveCursorRight_lines (s : TextEditorWindow) :
    s.moveCursorRight._lines = s._lines ∧ s.moveCursorRight._tabLen = s._tabLen ∧
      s.moveCursorRight._capslock = s._capslock := by
  rw [moveCursorRight_eq]
  split_ifs <;> simp

theorem moveCursorLeft_lines (s : TextEditorWindow) :
    s.moveCursorLeft._lines = s._lines ∧ s.moveCursorLeft._tabLen = s._tabLen ∧
      s.moveCursorLeft._capslock = s._capslock := by
  rw [moveCursorLeft_eq]
  split_ifs <;> simp

end TextEditorWindow

/-- C11: on a valid state with cursor (r, 0) and `r >= 1`, after removeChar the
line at row r-1 is `Buffer[r-1] ++ Buffer[r]`, the buffer has exactly one line
less, the lines before row r-1 are unchanged and the lines after row r have
moved up by one, the total character count is unchanged, and the cursor is
(r-1, prevLen) with prevLen the length of `Buffer[r-1]` before the call. -/
theorem C11_removeChar_join (s : TextEditorWindow) (h : Valid s)
    (hx : s._cursorX = 0) (hy : 1 ≤ s._cursorY) :
    s.removeChar._lines[s._cursorY - 1]? =
      some (lineAt s._lines (s._cursorY - 1) ++ lineAt s._lines s._cursorY) ∧
    s.removeChar._lines.length + 1 = s._lines.length ∧
    (∀ i : Nat, i < s._cursorY - 1 → s.removeChar._lines[i]? = s._lines[i]?) ∧
    (∀ i : Nat, s._cursorY ≤ i → s.removeChar._lines[i]? = s._lines[i + 1]?) ∧
    totalChars s.removeChar = totalChars s ∧
    s.removeChar._cursorY = s._cursorY - 1 ∧
    s.removeChar._cursorX = (lineAt s._lines (s._cursorY - 1)).length := by
  rw [removeChar_eq_of_zero s hx hy]
  obtain ⟨_, h2, _⟩ := h
  have hk : s._cursorY - 1 + 1 = s._cursorY := Nat.sub_add_cancel hy
  dsimp only
  refine ⟨?_, ?_, ?_, ?_, ?_, rfl, rfl⟩
  · rw [List.getElem?_eraseIdx_of_lt _ _ _ (by omega), List.getElem?_set_self (by omega)]
  · rw [List.length_eraseIdx, List.length_set, if_pos h2]
    omega
  · intro i hi
    rw [List.getElem?_eraseIdx_of_lt _ _ _ (by omega), List.getElem?_set_ne (by omega)]
  · intro i hi
    rw [List.getElem?_eraseIdx_of_ge _ _ _ hi, List.getElem?_set_ne (by omega)]
  · have hs := sum_length_join s._lines (s._cursorY - 1) (by omega)
    rw [hk] at hs
    exact hs

/-- Witness of C11: backspace at the start of the second line of ["ab", "cd", "e"]
gives ["abcd", "e"] with the cursor at (0, 2). -/
theorem C11_removeChar_join_witness :
    Valid ⟨[['a', 'b'], ['c', 'd'], ['e']], 0, 1, 4, false⟩ ∧
    (⟨[['a', 'b'], ['c', 'd'], ['e']], 0, 1, 4, false⟩ : TextEditorWindow).removeChar._lines[0]? =
      some (['a', 'b'] ++ ['c', 'd']) ∧
    (⟨[['a', 'b'], ['c', 'd'], ['e']], 0, 1, 4, false⟩ : TextEditorWindow).removeChar._cursorX =
      2 :=
  ⟨by decide,
    (C11_removeChar_join ⟨[['a', 'b'], ['c', 'd'], ['e']], 0, 1, 4, false⟩ (by decide) rfl
      (by decide)).1,
    (C11_removeChar_join ⟨[['a', 'b'], ['c', 'd'], ['e']], 0, 1, 4, false⟩ (by decide) rfl
      (by decide)).2.2.2.2.2.2⟩

/-- C12: on a valid state whose cursor is (0, 0), removeChar returns the state
unchanged: the same lines, the same number of lines and the same cursor. -/
theorem C12_removeChar_origin (s : TextEditorWindow) (h : Valid s)
    (hx : s._cursorX = 0) (hy : s._cursorY = 0) :
    s.removeChar = s ∧ s.removeChar._lines = s._lines ∧
    s.removeChar._lines.length = s._lines.length ∧
    s.removeChar._cursorX = 0 ∧ s.removeChar._cursorY = 0 := by
  have _hv := h
  rw [removeChar_eq_of_origin s hx hy]
  exact ⟨rfl, rfl, rfl, hx, hy⟩

/-- Witness of C12: backspace at the origin of ["ab", "cd"]. -/
theorem C12_removeChar_origin_witness :
    Valid ⟨[['a', 'b'], ['c', 'd']], 0, 0, 4, false⟩ ∧
    (⟨[['a', 'b'], ['c', 'd']], 0, 0, 4, false⟩ : TextEditorWindow).removeChar =
      ⟨[['a', 'b'], ['c', 'd']], 0, 0, 4, false⟩ :=
  ⟨by decide,
    (C12_removeChar_origin ⟨[['a', 'b'], ['c', 'd']], 0, 0, 4, false⟩ (by decide) rfl rfl).1⟩

/-- C13: on a valid state, moveCursorLeft at (0,0), moveCursorRight at the last
row with the column at the end of the last line, moveCursorUp at row 0 and
moveCursorDown at the last row each return the state unchanged, and so does
any number `n` of repetitions of the call. -/
theorem C13_navigation_edges (s : TextEditorWindow) (h : Valid s) (n : Nat) :
    (s._cursorX = 0 ∧ s._cursorY = 0 →
      s.moveCursorLeft = s ∧ TextEditorWindow.moveCursorLeft^[n] s = s) ∧
    (s._cursorY = s._lines.length - 1 ∧
        s._cursorX = (lineAt s._lines s._cursorY).length →
      s.moveCursorRight = s ∧ TextEditorWindow.moveCursorRight^[n] s = s) ∧
    (s._cursorY = 0 →
      s.moveCursorUp = s ∧ TextEditorWindow.moveCursorUp^[n] s = s) ∧
    (s._cursorY = s._lines.length - 1 →
      s.moveCursorDown = s ∧ TextEditorWindow.moveCursorDown^[n] s = s) := by
  have _hv := h
  refine ⟨?_, ?_, ?_, ?_⟩
  · rintro ⟨hx, hy⟩
    have e : s.moveCursorLeft = s := by
      rw [moveCursorLeft_eq, if_neg (by omega), if_neg (by omega)]
    exact ⟨e, Function.iterate_fixed e n⟩
  · rintro ⟨hy, hx⟩
    have e : s.moveCursorRight = s := by
      rw [moveCursorRight_eq, if_neg (by omega), if_neg (by omega)]
    exact ⟨e, Function.iterate_fixed e n⟩
  · intro hy
    have e : s.moveCursorUp = s := by
      rw [moveCursorUp_eq, if_neg (by omega)]
    exact ⟨e, Function.iterate_fixed e n⟩
  · intro hy
    have e : s.moveCursorDown = s := by
      rw [moveCursorDown_eq, if_neg (by omega)]
    exact ⟨e, Function.iterate_fixed e n⟩

/-- Witness of C13: the four edges of the buffer ["ab", "cd"], each call
repeated three times. -/
theorem C13_navigation_edges_witness :
    Valid ⟨[['a', 'b'], ['c', 'd']], 0, 0, 4, false⟩ ∧
    Valid ⟨[['a', 'b'], ['c', 'd']], 2, 1, 4, false⟩ ∧
    TextEditorWindow.moveCursorLeft^[3] ⟨[['a', 'b'], ['c', 'd']], 0, 0, 4, false⟩ =
      ⟨[['a', 'b'], ['c', 'd']], 0, 0, 4, false⟩ ∧
    TextEditorWindow.moveCursorRight^[3] ⟨[['a', 'b'], ['c', 'd']], 2, 1, 4, false⟩ =
      ⟨[['a', 'b'], ['c', 'd']], 2, 1, 4, false⟩ ∧
    TextEditorWindow.moveCursorUp^[3] ⟨[['a', 'b'], ['c', 'd']], 0, 0, 4, false⟩ =
      ⟨[['a', 'b'], ['c', 'd']], 0, 0, 4, false⟩ ∧
    TextEditorWindow.moveCursorDown^[3] ⟨[['a', 'b'], ['c', 'd']], 2, 1, 4, false⟩ =
      ⟨[['a', 'b'], ['c', 'd']], 2, 1, 4, false⟩ :=
  ⟨by decide, by decide,
    ((C13_navigation_edges ⟨[['a', 'b'], ['c', 'd']], 0, 0, 4, false⟩ (by decide) 3).1
      ⟨rfl, rfl⟩).2,
    ((C13_navigation_edges ⟨[['a', 'b'], ['c', 'd']], 2, 1, 4, false⟩ (by decide) 3).2.1
      ⟨rfl, rfl⟩).2,
    ((C13_navigation_edges ⟨[['a', 'b'], ['c', 'd']], 0, 0, 4, false⟩ (by decide) 3).2.2.1
      rfl).2,
    ((C13_navigation_edges ⟨[['a', 'b'], ['c', 'd']], 2, 1, 4, false⟩ (by decide) 3).2.2.2
      rfl).2⟩

/-- C14: on a valid state with cursor (r, c), moveCursorDown with
`r < len(Buffer) - 1` yields the cursor `(r+1, min(c, len(Buffer[r+1])))`, and
moveCursorUp with `r > 0` yields the cursor `(r-1, min(c, len(Buffer[r-1])))`. -/
theorem C14_vertical_moves (s : TextEditorWindow) (h : Valid s) :
    (s._cursorY < s._lines.length - 1 →
      s.moveCursorDown._cursorY = s._cursorY + 1 ∧
      s.moveCursorDown._cursorX =
        min s._cursorX (lineAt s._lines (s._cursorY + 1)).length) ∧
    (0 < s._cursorY →
      s.moveCursorUp._cursorY = s._cursorY - 1 ∧
      s.moveCursorUp._cursorX =
        min s._cursorX (lineAt s._lines (s._cursorY - 1)).length) := by
  have _hv := h
  constructor
  · intro hy
    rw [moveCursorDown_eq, if_pos hy]
    exact ⟨rfl, rfl⟩
  · intro hy
    rw [moveCursorUp_eq, if_pos hy]
    exact ⟨rfl, rfl⟩

/-- Witness of C14: from (1, 2) in ["a", "bcd", "ef"], down gives (2, 2) and up
gives (0, 1). -/
theorem C14_vertical_moves_witness :
    Valid ⟨[['a'], ['b', 'c', 'd'], ['e', 'f']], 2, 1, 4, false⟩ ∧
    ((⟨[['a'], ['b', 'c', 'd'], ['e', 'f']], 2, 1, 4, false⟩ :
        TextEditorWindow).moveCursorDown._cursorY = 1 + 1 ∧
      (⟨[['a'], ['b', 'c', 'd'], ['e', 'f']], 2, 1, 4, false⟩ :
        TextEditorWindow).moveCursorDown._cursorX = min 2 ['e', 'f'].length) ∧
    ((⟨[['a'], ['b', 'c', 'd'], ['e', 'f']], 2, 1, 4, false⟩ :
        TextEditorWindow).moveCursorUp._cursorY = 1 - 1 ∧
      (⟨[['a'], ['b', 'c', 'd'], ['e', 'f']], 2, 1, 4, false⟩ :
        TextEditorWindow).moveCursorUp._cursorX = min 2 ['a'].length) :=
  ⟨by decide,
    (C14_vertical_moves ⟨[['a'], ['b', 'c', 'd'], ['e', 'f']], 2, 1, 4, false⟩
      (by decide)).1 (by decide),
    (C14_vertical_moves ⟨[['a'], ['b', 'c', 'd'], ['e', 'f']], 2, 1, 4, false⟩
      (by decide)).2 (by decide)⟩

/-- C15: on a valid state with cursor (r, c), moveCursorLeft gives the cursor
(r, c-1) when `c > 0`, and `(r-1, len(Buffer[r-1]))` when `c = 0` and `r > 0`. -/
theorem C15_moveCursorLeft (s : TextEditorWindow) (h : Valid s) :
    (0 < s._cursorX →
      s.moveCursorLeft._cursorY = s._cursorY ∧
      s.moveCursorLeft._cursorX = s._cursorX - 1) ∧
    (s._cursorX = 0 ∧ 0 < s._cursorY →
      s.moveCursorLeft._cursorY = s._cursorY - 1 ∧
      s.moveCursorLeft._cursorX = (lineAt s._lines (s._cursorY - 1)).length) := by
  have _hv := h
  constructor
  · intro hx
    rw [moveCursorLeft_eq, if_pos hx]
    exact ⟨rfl, rfl⟩
  · rintro ⟨hx, hy⟩
    rw [moveCursorLeft_eq, if_neg (by omega), if_pos hy]
    exact ⟨rfl, rfl⟩

/-- Witness of C15: in ["abc", "de"], left from (1, 1) gives (1, 0) and left
from (1, 0) gives (0, 3). -/
theorem C15_moveCursorLeft_witness :
    Valid ⟨[['a', 'b', 'c'], ['d', 'e']], 1, 1, 4, false⟩ ∧
    Valid ⟨[['a', 'b', 'c'], ['d', 'e']], 0, 1, 4, false⟩ ∧
    ((⟨[['a', 'b', 'c'], ['d', 'e']], 1, 1, 4, false⟩ :
        TextEditorWindow).moveCursorLeft._cursorY = 1 ∧
      (⟨[['a', 'b', 'c'], ['d', 'e']], 1, 1, 4, false⟩ :
        TextEditorWindow).moveCursorLeft._cursorX = 1 - 1) ∧
    ((⟨[['a', 'b', 'c'], ['d', 'e']], 0, 1, 4, false⟩ :
        TextEditorWindow).moveCursorLeft._cursorY = 1 - 1 ∧
      (⟨[['a', 'b', 'c'], ['d', 'e']], 0, 1, 4, false⟩ :
        TextEditorWindow).moveCursorLeft._cursorX = ['a', 'b', 'c'].length) :=
  ⟨by decide, by decide,
    (C15_moveCursorLeft ⟨[['a', 'b', 'c'], ['d', 'e']], 1, 1, 4, false⟩ (by decide)).1
      (by decide),
    (C15_moveCursorLeft ⟨[['a', 'b', 'c'], ['d', 'e']], 0, 1, 4, false⟩ (by decide)).2
      ⟨rfl, by decide⟩⟩

/-- C16, counterexample: on the valid state with buffer ["ab", "cd"] and cursor
(0, 2), at the end of a line that is not the last, moveCursorRight gives the
cursor (1, 2), not the start of the next line (1, 0). -/
theorem C16_counterexample :
    Valid ⟨[['a', 'b'], ['c', 'd']], 2, 0, 4, false⟩ ∧
    (2 : Nat) = (lineAt [['a', 'b'], ['c', 'd']] 0).length ∧
    (0 : Nat) < [['a', 'b'], ['c', 'd']].length - 1 ∧
    (⟨[['a', 'b'], ['c', 'd']], 2, 0, 4, false⟩ : TextEditorWindow).moveCursorRight =
      ⟨[['a', 'b'], ['c', 'd']], 2, 1, 4, false⟩ ∧
    ¬ ((⟨[['a', 'b'], ['c', 'd']], 2, 0, 4, false⟩ :
          TextEditorWindow).moveCursorRight._cursorY = 0 + 1 ∧
        (⟨[['a', 'b'], ['c', 'd']], 2, 0, 4, false⟩ :
          TextEditorWindow).moveCursorRight._cursorX = 0) := by
  decide

/-- C16, amended: on a valid state with cursor (r, c), moveCursorRight gives the
cursor (r, c+1) when `c < len(Buffer[r])`; when `c = len(Buffer[r])` and r is
not the last row it gives `(r+1, min(c, len(Buffer[r+1])))`: the cursor moves
to the next line and keeps its column, clamped to the length of that line. -/
theorem C16_moveCursorRight_amended (s : TextEditorWindow) (h : Valid s) :
    (s._cursorX < (lineAt s._lines s._cursorY).length →
      s.moveCursorRight._cursorY = s._cursorY ∧
      s.moveCursorRight._cursorX = s._cursorX + 1) ∧
    (s._cursorX = (lineAt s._lines s._cursorY).length ∧
        s._cursorY < s._lines.length - 1 →
      s.moveCursorRight._cursorY = s._cursorY + 1 ∧
      s.moveCursorRight._cursorX =
        min s._cursorX (lineAt s._lines (s._cursorY + 1)).length) := by
  have _hv := h
  constructor
  · intro hx
    rw [moveCursorRight_eq, if_pos hx]
    exact ⟨rfl, rfl⟩
  · rintro ⟨hx, hy⟩
    rw [moveCursorRight_eq, if_neg (by omega), if_pos hy]
    exact ⟨rfl, rfl⟩

/-- Witness of C16 (amended): in ["ab", "c"], right from (0, 1) gives (0, 2) and
right from (0, 2) gives (1, 1). -/
theorem C16_moveCursorRight_amended_witness :
    Valid ⟨[['a', 'b'], ['c']], 1, 0, 4, false⟩ ∧
    Valid ⟨[['a', 'b'], ['c']], 2, 0, 4, false⟩ ∧
    ((⟨[['a', 'b'], ['c']], 1, 0, 4, false⟩ : TextEditorWindow).moveCursorRight._cursorY = 0 ∧
      (⟨[['a', 'b'], ['c']], 1, 0, 4, false⟩ : TextEditorWindow).moveCursorRight._cursorX =
        1 + 1) ∧
    ((⟨[['a', 'b'], ['c']], 2, 0, 4, false⟩ : TextEditorWindow).moveCursorRight._cursorY =
        0 + 1 ∧
      (⟨[['a', 'b'], ['c']], 2, 0, 4, false⟩ : TextEditorWindow).moveCursorRight._cursorX =
        min 2 ['c'].length) :=
  ⟨by decide, by decide,
    (C16_moveCursorRight_amended ⟨[['a', 'b'], ['c']], 1, 0, 4, false⟩ (by decide)).1
      (by decide),
    (C16_moveCursorRight_amended ⟨[['a', 'b'], ['c']], 2, 0, 4, false⟩ (by decide)).2
      ⟨by decide, by decide⟩⟩

/-! ## Lemmas for the tab loop -/

namespace TextEditorWindow

theorem addChar_tabLen (s : TextEditorWindow) (c : Char) :
    (s.addChar c)._tabLen = s._tabLen := by
  unfold addChar
  dsimp only
  exact (moveCursorRight_lines _).2.1

theorem tabLoop_eq_iterate :
    ∀ (k : Nat) (s : TextEditorWindow) (i : Nat), s._tabLen - i = k →
      s.tabLoop i = (fun t : TextEditorWindow => t.addChar ' ')^[k] s := by
  intro k
  induction k with
  | zero =>
    intro s i hk
    rw [tabLoop, if_neg (by omega)]
    rfl
  | succ k ih =>
    intro s i hk
    rw [tabLoop, if_pos (by omega), ih (s.addChar ' ') (i + 1)
      (by rw [addChar_tabLen]; omega), Function.iterate_succ_apply]

theorem iterate_addChar_eq (s : TextEditorWindow) (c : Char) (h : Valid s) :
    ∀ n : Nat, (fun t : TextEditorWindow => t.addChar c)^[n] s =
      { s with
        _lines := s._lines.set s._cursorY
          ((lineAt s._lines s._cursorY).take s._cursorX ++ List.replicate n c ++
            (lineAt s._lines s._cursorY).drop s._cursorX),
        _cursorX := s._cursorX + n } := by
  obtain ⟨h1, h2, h3⟩ := h
  intro n
  induction n with
  | zero =>
    simp only [Function.iterate_zero, id_eq, List.replicate_zero, List.append_nil,
      List.take_append_drop, Nat.add_zero]
    rw [set_lineAt_self _ _ h2]
  | succ n ih =>
    rw [Function.iterate_succ_apply', ih]
    have hlen : ((lineAt s._lines s._cursorY).take s._cursorX ++ List.replicate n c).length =
        s._cursorX + n := by
      rw [List.length_append, List.length_take, List.length_replicate]
      omega
    have hv : Valid { s with
        _lines := s._lines.set s._cursorY
          ((lineAt s._lines s._cursorY).take s._cursorX ++ List.replicate n c ++
            (lineAt s._lines s._cursorY).drop s._cursorX),
        _cursorX := s._cursorX + n } := by
      refine ⟨?_, ?_, ?_⟩
      · show 1 ≤ (s._lines.set _ _).length
        rw [List.length_set]; exact h1
      · show s._cursorY < (s._lines.set _ _).length
        rw [List.length_set]; exact h2
      · show s._cursorX + n ≤ (lineAt (s._lines.set s._cursorY _) s._cursorY).length
        rw [lineAt_set_self _ _ _ h2, List.length_append, hlen]
        omega
    rw [addChar_eq _ c hv]
    dsimp only
    rw [lineAt_set_self _ _ _ h2, List.take_left' hlen, List.drop_left' hlen, List.set_set,
      List.replicate_succ', List.append_assoc, List.append_assoc, List.append_assoc,
      List.singleton_append]
    rfl

end TextEditorWindow

/-- C17: on a valid state with current line L and cursor (r, c), a Tab key-down
gives the same state as `_tabLen` successive addChar(' ') calls: line r becomes
`L[0..c) ++ _tabLen spaces ++ L[c..)`, the other lines are unchanged and the
cursor is (r, c + _tabLen); `init` sets `_tabLen` to 4. -/
theorem C17_tab_expansion (s : TextEditorWindow) (u : Nat) (h : Valid s) :
    s.onKeyEvent ⟨⟨SDLKey.SDLK_TAB, u⟩⟩ true =
      (fun t : TextEditorWindow => t.addChar ' ')^[s._tabLen] s ∧
    (s.onKeyEvent ⟨⟨SDLKey.SDLK_TAB, u⟩⟩ true)._lines[s._cursorY]? =
      some ((lineAt s._lines s._cursorY).take s._cursorX ++
        List.replicate s._tabLen ' ' ++ (lineAt s._lines s._cursorY).drop s._cursorX) ∧
    (∀ i : Nat, i ≠ s._cursorY →
      (s.onKeyEvent ⟨⟨SDLKey.SDLK_TAB, u⟩⟩ true)._lines[i]? = s._lines[i]?) ∧
    (s.onKeyEvent ⟨⟨SDLKey.SDLK_TAB, u⟩⟩ true)._lines.length = s._lines.length ∧
    (s.onKeyEvent ⟨⟨SDLKey.SDLK_TAB, u⟩⟩ true)._cursorY = s._cursorY ∧
    (s.onKeyEvent ⟨⟨SDLKey.SDLK_TAB, u⟩⟩ true)._cursorX = s._cursorX + s._tabLen ∧
    (TextEditorWindow.init TextEditorWindow.new)._tabLen = 4 := by
  have e : s.onKeyEvent ⟨⟨SDLKey.SDLK_TAB, u⟩⟩ true =
      (fun t : TextEditorWindow => t.addChar ' ')^[s._tabLen] s := by
    unfold onKeyEvent
    simp only [reduceCtorEq, if_false, if_true]
    exact tabLoop_eq_iterate s._tabLen s 0 rfl
  rw [e, iterate_addChar_eq s ' ' h]
  obtain ⟨_, h2, _⟩ := h
  dsimp only
  refine ⟨rfl, List.getElem?_set_self h2, ?_, List.length_set _ _ _, rfl, rfl, rfl⟩
  intro i hi
  exact List.getElem?_set_ne (Ne.symm hi)

/-- Witness of C17: a Tab key-down at column 1 of the first line of ["ab", "cd"]
with tab length 4 gives the line "a    b" and the cursor column 5. -/
theorem C17_tab_expansion_witness :
    Valid ⟨[['a', 'b'], ['c', 'd']], 1, 0, 4, false⟩ ∧
    ((⟨[['a', 'b'], ['c', 'd']], 1, 0, 4, false⟩ : TextEditorWindow).onKeyEvent
        ⟨⟨SDLKey.SDLK_TAB, 9⟩⟩ true)._lines[0]? =
      some (['a'] ++ List.replicate 4 ' ' ++ ['b']) ∧
    ((⟨[['a', 'b'], ['c', 'd']], 1, 0, 4, false⟩ : TextEditorWindow).onKeyEvent
        ⟨⟨SDLKey.SDLK_TAB, 9⟩⟩ true)._cursorX = 1 + 4 :=
  ⟨by decide,
    (C17_tab_expansion ⟨[['a', 'b'], ['c', 'd']], 1, 0, 4, false⟩ 9 (by decide)).2.1,
    (C17_tab_expansion ⟨[['a', 'b'], ['c', 'd']], 1, 0, 4, false⟩ 9
      (by decide)).2.2.2.2.2.1⟩

/-! ## Lemmas for the character branch of `onKeyEvent` -/

namespace TextEditorWindow

/-- A key-down of a key without a special meaning whose character code has a
low byte outside 1..0x7F leaves the state unchanged. -/
theorem onKeyEvent_other_ignored (s : TextEditorWindow) (u : Nat)
    (hu : u % 256 = 0 ∨ 128 ≤ u % 256) :
    s.onKeyEvent ⟨⟨SDLKey.SDLK_other, u⟩⟩ true = s := by
  have hmod : u % 2 ^ 16 % 2 ^ 8 = u % 256 := by omega
  unfold onKeyEvent charOfUnicode
  simp only [reduceCtorEq, if_false, if_true, hmod]
  rw [if_neg]
  split_ifs <;> omega

/-- A key-down of a key without a special meaning whose character code has a
low byte `b` in 1..0x7F inserts the character `b`, whatever the high byte is. -/
theorem onKeyEvent_other_inserted (s : TextEditorWindow) (u : Nat)
    (hu : 0 < u % 256 ∧ u % 256 < 128) :
    s.onKeyEvent ⟨⟨SDLKey.SDLK_other, u⟩⟩ true = s.addChar (Char.ofNat (u % 256)) := by
  have hmod : u % 2 ^ 16 % 2 ^ 8 = u % 256 := by omega
  unfold onKeyEvent charOfUnicode
  simp only [reduceCtorEq, if_false, if_true, hmod]
  rw [if_pos (by omega), if_pos (by omega)]
  rfl

end TextEditorWindow

/-- C18, the code at a failing input: a key-down of a key without a special
meaning with the 16-bit character code 0x0141, which lies outside 1..0x7F, on
the state after `init`: the conversion to `char` keeps the low byte 0x41, the
range test accepts it, and the character 'A' is inserted; the buffer becomes
["A"] and the cursor (0, 1). -/
theorem C18_unrepresentable_failing :
    ¬ (1 ≤ 0x0141 ∧ 0x0141 ≤ 0x7F) ∧ 0x0141 < 2 ^ 16 ∧
    charOfUnicode 0x0141 = 0x41 ∧
    initial.onKeyEvent ⟨⟨SDLKey.SDLK_other, 0x0141⟩⟩ true =
      ⟨[['A']], 1, 0, 4, false⟩ ∧
    (initial.onKeyEvent ⟨⟨SDLKey.SDLK_other, 0x0141⟩⟩ true)._lines ≠ initial._lines ∧
    (initial.onKeyEvent ⟨⟨SDLKey.SDLK_other, 0x0141⟩⟩ true)._cursorX ≠ initial._cursorX := by
  decide

/-! ## The erase loop of `addLine` -/

theorem oddOffsets_getElem? : ∀ (l : List Char) (j : Nat),
    (oddOffsets l)[j]? = l[2 * j + 1]?
  | [], j => by simp [oddOffsets]
  | [_], j => by simp [oddOffsets]
  | _ :: b :: t, 0 => by simp [oddOffsets]
  | a :: b :: t, j + 1 => by
    have ih := oddOffsets_getElem? t j
    have e : 2 * (j + 1) + 1 = (2 * j + 1) + 1 + 1 := by omega
    rw [e]
    simp only [oddOffsets, List.getElem?_cons_succ]
    exact ih

theorem eraseLoop_append : ∀ (k : Nat) (P tail : List Char), tail.length ≤ k →
    eraseLoop (P ++ tail) P.length = P ++ oddOffsets tail := by
  intro k
  induction k with
  | zero =>
    intro P tail hk
    have ht : tail = [] := List.length_eq_zero.mp (by omega)
    subst ht
    rw [eraseLoop_of_le _ _ (by simp)]
    simp [oddOffsets]
  | succ k ih =>
    intro P tail hk
    match tail, hk with
    | [], _ =>
      rw [eraseLoop_of_le _ _ (by simp)]
      simp [oddOffsets]
    | [a], _ =>
      rw [eraseLoop, dif_pos (by simp),
        List.eraseIdx_append_of_length_le (Nat.le_refl _), Nat.sub_self]
      simp only [List.eraseIdx_cons_zero, List.append_nil, oddOffsets]
      exact eraseLoop_of_le _ _ (Nat.le_succ _)
    | a :: b :: t, hk =>
      have ht : t.length ≤ k := by
        simp only [List.length_cons] at hk
        omega
      have hstep := ih (P ++ [b]) t ht
      rw [eraseLoop, dif_pos (by simp),
        List.eraseIdx_append_of_length_le (Nat.le_refl _), Nat.sub_self]
      simp only [List.eraseIdx_cons_zero, oddOffsets]
      simp only [List.length_append, List.length_singleton, List.append_assoc,
        List.singleton_append] at hstep
      exact hstep

theorem eraseLoop_eq (line : List Char) (x : Nat) :
    eraseLoop line x = line.take x ++ oddOffsets (line.drop x) := by
  by_cases hx : x ≤ line.length
  · have h := eraseLoop_append (line.drop x).length (line.take x) (line.drop x)
      (Nat.le_refl _)
    rw [List.take_append_drop, List.length_take, Nat.min_eq_left hx] at h
    exact h
  · have hx1 : line.length ≤ x := by omega
    rw [eraseLoop_of_le _ _ hx1, List.take_of_length_le hx1, List.drop_of_length_le hx1]
    simp [oddOffsets]

/-- C19: on a valid state with current line L of length n at row r and cursor
column c, let `s = c + 1`.  After addLine, `Buffer[r+1] = L[s..)` (empty when
`s >= n`), `Buffer[r]` is `L[0..s)` followed by the characters at the odd
offsets of `L[s..)`, whose j-th element is `L[s + (2j+1)]` (so `Buffer[r] = L`
when `s >= n`), and the cursor is `(r+1, min(s, len(Buffer[r+1])))`. -/
theorem C19_addLine_exact (s : TextEditorWindow) (h : Valid s) :
    s.addLine._lines[s._cursorY + 1]? =
      some ((lineAt s._lines s._cursorY).drop (s._cursorX + 1)) ∧
    s.addLine._lines[s._cursorY]? =
      some ((lineAt s._lines s._cursorY).take (s._cursorX + 1) ++
        oddOffsets ((lineAt s._lines s._cursorY).drop (s._cursorX + 1))) ∧
    (∀ j : Nat, (oddOffsets ((lineAt s._lines s._cursorY).drop (s._cursorX + 1)))[j]? =
      (lineAt s._lines s._cursorY)[s._cursorX + 1 + (2 * j + 1)]?) ∧
    ((lineAt s._lines s._cursorY).length ≤ s._cursorX + 1 →
      s.addLine._lines[s._cursorY + 1]? = some [] ∧
      s.addLine._lines[s._cursorY]? = some (lineAt s._lines s._cursorY)) ∧
    s.addLine._cursorY = s._cursorY + 1 ∧
    s.addLine._cursorX =
      min (s._cursorX + 1) (lineAt s.addLine._lines (s._cursorY + 1)).length := by
  rw [addLine_eq s h]
  obtain ⟨_, h2, _⟩ := h
  have hle : s._cursorY + 1 ≤ s._lines.length := h2
  have hlen := length_insertIdx_of_le s._lines (s._cursorY + 1) [] hle
  have hnew : (((s._lines.insertIdx (s._cursorY + 1) []).set (s._cursorY + 1)
      ((lineAt s._lines s._cursorY).drop (s._cursorX + 1))).set s._cursorY
        (eraseLoop (lineAt s._lines s._cursorY) (s._cursorX + 1)))[s._cursorY + 1]? =
      some ((lineAt s._lines s._cursorY).drop (s._cursorX + 1)) := by
    rw [List.getElem?_set_ne (Nat.ne_of_lt (Nat.lt_succ_self _)),
      List.getElem?_set_self (by rw [hlen]; omega)]
  have hold : (((s._lines.insertIdx (s._cursorY + 1) []).set (s._cursorY + 1)
      ((lineAt s._lines s._cursorY).drop (s._cursorX + 1))).set s._cursorY
        (eraseLoop (lineAt s._lines s._cursorY) (s._cursorX + 1)))[s._cursorY]? =
      some ((lineAt s._lines s._cursorY).take (s._cursorX + 1) ++
        oddOffsets ((lineAt s._lines s._cursorY).drop (s._cursorX + 1))) := by
    rw [List.getElem?_set_self (by rw [List.length_set, hlen]; omega), eraseLoop_eq]
  dsimp only
  refine ⟨hnew, hold, ?_, ?_, rfl, ?_⟩
  · intro j
    rw [oddOffsets_getElem?, List.getElem?_drop]
  · intro hn
    rw [hnew, hold, List.drop_of_length_le hn, List.take_of_length_le hn]
    simp [oddOffsets]
  · rw [lineAt_set_ne _ _ _ _ (Nat.ne_of_lt (Nat.lt_succ_self _)),
      lineAt_set_self _ _ _ (by rw [hlen]; omega), List.length_drop]

/-- Witness of C19: addLine on ["x", "abcde", "y"] with cursor (1, 1): row 2 is
"cde" and row 1 is "ab" followed by the odd offsets of "cde", that is "abd". -/
theorem C19_addLine_exact_witness :
    Valid ⟨[['x'], ['a', 'b', 'c', 'd', 'e'], ['y']], 1, 1, 4, false⟩ ∧
    (⟨[['x'], ['a', 'b', 'c', 'd', 'e'], ['y']], 1, 1, 4, false⟩ :
        TextEditorWindow).addLine._lines[1 + 1]? = some ['c', 'd', 'e'] ∧
    (⟨[['x'], ['a', 'b', 'c', 'd', 'e'], ['y']], 1, 1, 4, false⟩ :
        TextEditorWindow).addLine._lines[1]? =
      some (['a', 'b'] ++ oddOffsets ['c', 'd', 'e']) ∧
    oddOffsets ['c', 'd', 'e'] = ['d'] :=
  ⟨by decide,
    (C19_addLine_exact ⟨[['x'], ['a', 'b', 'c', 'd', 'e'], ['y']], 1, 1, 4, false⟩
      (by decide)).1,
    (C19_addLine_exact ⟨[['x'], ['a', 'b', 'c', 'd', 'e'], ['y']], 1, 1, 4, false⟩
      (by decide)).2.1,
    by decide⟩

/-- C20: moveCursorUp, moveCursorDown, moveCursorLeft and moveCursorRight leave
the buffer exactly as it is (the same lines, hence the same number of lines and
the same contents of every line), on every state, valid or not; the tab length
and the caps-lock flag are unchanged too, so only the cursor may change. -/
theorem C20_navigation_frame (s : TextEditorWindow) :
    (s.moveCursorUp._lines = s._lines ∧ s.moveCursorUp._tabLen = s._tabLen ∧
      s.moveCursorUp._capslock = s._capslock) ∧
    (s.moveCursorDown._lines = s._lines ∧ s.moveCursorDown._tabLen = s._tabLen ∧
      s.moveCursorDown._capslock = s._capslock) ∧
    (s.moveCursorLeft._lines = s._lines ∧ s.moveCursorLeft._tabLen = s._tabLen ∧
      s.moveCursorLeft._capslock = s._capslock) ∧
    (s.moveCursorRight._lines = s._lines ∧ s.moveCursorRight._tabLen = s._tabLen ∧
      s.moveCursorRight._capslock = s._capslock) :=
  ⟨moveCursorUp_lines s, moveCursorDown_lines s, moveCursorLeft_lines s,
    moveCursorRight_lines s⟩
